import Mathlib

set_option linter.unusedVariables false

/-
Shallow embedding of src/app.js (a browser chess app playing against a
UCI engine).  The embedded core is the Engine Communication & Move
Orchestration subsystem:

  * `EngineManager` (src/app.js lines 3-131): the engine process
    adapter together with the line-oriented protocol codec.  Its mutable
    fields become `EMState`; callbacks into the page (`statusCallback`,
    `onReadyCallback`, `onMoveCallback`) are recorded as data
    (`statusLog` is the sequence of status texts, `readyFires` counts
    ready-callback invocations, and `emHandleMessage` returns the
    argument of an `onMoveCallback` invocation when one happens).
  * `ChessApp` (src/app.js lines 133-392): the move orchestrator.  Its
    mutable fields become `AppState`.  DOM rendering (`renderBoard`,
    the drag visual, `elementsFromPoint`) is pure presentation and is
    omitted; the completed-gesture contract point is kept: a pointerup
    delivers an optional drop square.  `document`-level drag listeners
    are modelled by the flag `dragListeners` (a pointerup event can be
    delivered only while they are attached, exactly as in the browser).

The chess.js rules engine is an external collaborator (spec section 1);
it is modelled as an abstract record of the operations the core
consumes (`RulesEngine`).  JavaScript strings are Lean `String`s;
`line.split(' ')`, `line.startsWith(t)` and `s.substring(i,j)` are
embedded through the character list `String.data`.

`setTimeout` calls become entries of the `pending` list; a timer event
can fire only while its entry is pending (and firing consumes it).
Worker messages and the worker `onerror` handler can be delivered only
while the worker channel is alive (`engineAlive`); `window` `message`
events only once the main-thread listener is installed (`listening`).
-/

/-- JS `line.split(' ')` on the character list of a string: split at every
occurrence of the separator, keeping empty fragments (`"".split(' ')` is
`[""]`, `" ".split(' ')` is `["",""]`). -/
def jsSplit : List Char → List (List Char)
  | [] => [[]]
  | c :: cs =>
    if c = ' ' then [] :: jsSplit cs
    else
      match jsSplit cs with
      | [] => [[c]]
      | t :: ts => (c :: t) :: ts

/-- JS `s.startsWith(pre)`. -/
def jsStartsWith (pre s : String) : Bool :=
  pre.data.isPrefixOf s.data

/-- src/app.js line 127: `const move = line.split(' ')[1];` — the first
space-separated token after the `bestmove` tag, `none` when the line has
no second token (JS `undefined`). -/
def bestMoveToken (line : String) : Option String :=
  match jsSplit line.data with
  | _ :: tok :: _ => some (String.mk tok)
  | _ => none

/-- Mutable state of `EngineManager` (src/app.js lines 3-14), plus the
observable history of its callbacks and channels:
`isWorker`, `isReady` are the fields of the same name; `engineAlive`
says `this.engine` holds a live (non-terminated) worker; `readyFires`
counts invocations of `onReadyCallback`; `statusLog` is the sequence of
`statusCallback` arguments; `workerSent` / `mainSent` are the commands
delivered to the worker channel / the main-thread engine;
`mainChannel` says a main-thread input channel exists
(`StockfishModule.ccall` or `window.onmessage`, src/app.js lines
101-107); `listening` says the `window` `message` listener of
`initMainThread` is installed; `detecting` says the
`waitForStockfishModule` polling loop is active. -/
structure EMState where
  isWorker : Bool
  engineAlive : Bool
  isReady : Bool
  readyFires : Nat
  statusLog : List String
  workerSent : List String
  mainSent : List String
  mainChannel : Bool
  listening : Bool
  detecting : Bool
  deriving DecidableEq, Repr

/-- `EngineManager.sendCommand` (src/app.js lines 93-112).  A command
other than `'uci'` sent before readiness returns immediately; otherwise
the command goes to the worker channel (worker mode) or to the
main-thread engine when an input channel exists (else only a console
warning is printed). -/
def sendCommand (s : EMState) (cmd : String) : EMState :=
  if s.isReady = false ∧ cmd ≠ "uci" then s
  else if s.isWorker then { s with workerSent := s.workerSent ++ [cmd] }
  else if s.mainChannel then { s with mainSent := s.mainSent ++ [cmd] }
  else s

/-- The status text reported on readiness (src/app.js line 121). -/
def readyStatusText (w : Bool) : String :=
  "Stockfish Ready " ++ (if w then "(Worker)" else "(Main)")

/-- `EngineManager.handleMessage` (src/app.js lines 114-130).  First
component: the updated manager state (`uciok` flips `isReady` once and
fires the ready callback once).  Second component: `some tok?` when the
line begins with `bestmove` (and is non-empty), meaning
`onMoveCallback` was invoked with token `tok?`. -/
def emHandleMessage (s : EMState) (line : String) : EMState × Option (Option String) :=
  let s1 :=
    if line = "uciok" then
      if s.isReady then s
      else { s with isReady := true, readyFires := s.readyFires + 1,
                    statusLog := s.statusLog ++ [readyStatusText s.isWorker] }
    else s
  if line ≠ "" ∧ jsStartsWith "bestmove" line = true then
    (s1, some (bestMoveToken line))
  else (s1, none)

/-- `EngineManager.switchToMainThread` (src/app.js lines 47-56):
terminate the worker if one is alive, leave worker mode, report the
status, and start `waitForStockfishModule` polling. -/
def switchToMainThread (s : EMState) : EMState :=
  let s1 := if s.isWorker ∧ s.engineAlive then { s with engineAlive := false } else s
  { s1 with isWorker := false,
            statusLog := s1.statusLog ++ ["Loading Main Thread Engine..."],
            detecting := true }

/-- `EngineManager.initMainThread` (src/app.js lines 76-91): install the
`window` `message` listener and send `'uci'` through `sendCommand`. -/
def initMainThread (s : EMState) : EMState :=
  sendCommand { s with listening := true } "uci"

/-- `EngineManager.init` (src/app.js lines 16-45).  `workerOk` says the
`new Worker(...)` construction succeeded (otherwise the `catch` falls
back immediately, before `isWorker` was ever set and before `'uci'` was
posted or the safety timeout armed); `mc` is the environmental fact of a
main-thread input channel existing. -/
def emInit (workerOk mc : Bool) : EMState :=
  let base : EMState :=
    { isWorker := false, engineAlive := false, isReady := false, readyFires := 0,
      statusLog := ["Initializing Engine..."], workerSent := [], mainSent := [],
      mainChannel := mc, listening := false, detecting := false }
  if workerOk then
    { base with isWorker := true, engineAlive := true, workerSent := ["uci"] }
  else switchToMainThread base

/-- A whole session of incoming lines fed to `handleMessage`. -/
def emLines (s : EMState) (ls : List String) : EMState :=
  ls.foldl (fun t l => (emHandleMessage t l).1) s

/-- A chess.js piece as consumed by the core: `{ color, type }`. -/
structure Piece where
  pcolor : Char
  ptype : Char
  deriving DecidableEq, Repr

/-- The rules engine (chess.js), an external collaborator specified only
at its interface (spec sections 1 and 6): the game state type `G` is
opaque and each operation the core consumes is a field.  chess.js
`move` is overloaded; `moveObj` is the `move({from,to,promotion})` form
(`none` = `null` = illegal, state unchanged), `moveSAN` is the
`move(sanString)` form used by the random fallback on strings coming
from `moves()` (identity when illegal, since the source ignores the
result). -/
structure RulesEngine (G : Type) where
  reset : G → G
  get : G → String → Option Piece
  movesAll : G → List String
  moveObj : G → String → String → String → Option G
  moveSAN : G → String → G
  undo : G → G
  fen : G → String
  turn : G → Char
  in_checkmate : G → Bool
  in_draw : G → Bool
  game_over : G → Bool

/-- The kinds of `setTimeout` timers the core arms. -/
inductive TimerKind
  | engineInit
  | randomMove
  deriving DecidableEq, Repr

/-- The worker-readiness safety timeout (src/app.js line 39). -/
def initTimeoutMs : Nat := 2000

/-- The `movetime` search bound (src/app.js line 344). -/
def searchTimeLimitMs : Nat := 2500

/-- The artificial delay before the random fallback move (src/app.js
line 349). -/
def randomDelayMs : Nat := 1000

/-- Mutable state of `ChessApp` (src/app.js lines 133-158) together
with its embedded `EngineManager`.  `dragListeners` models whether the
`document`-level `pointermove`/`pointerup` listeners of a drag are
attached (src/app.js lines 273-277; a rendered piece element exists
exactly when `get` returns a piece).  `pending` holds the armed
`setTimeout` timers (delay in ms, kind).  `statusText` is
`statusEl.innerText`. -/
structure AppState (G : Type) where
  mgr : EMState
  game : G
  isThinking : Bool
  playerColor : Char
  selectedSquare : Option String
  isDragging : Bool
  dragStartSquare : Option String
  dragListeners : Bool
  statusText : String
  pending : List (Nat × TimerKind)
  deriving DecidableEq

variable {G : Type}

/-- `ChessApp.updateStatus` (src/app.js lines 383-391). -/
def updateStatus (re : RulesEngine G) (s : AppState G) : AppState G :=
  { s with statusText :=
      if re.in_checkmate s.game then
        if re.turn s.game = 'w' then "Black Wins!" else "White Wins!"
      else if re.in_draw s.game then "Draw!"
      else if re.turn s.game = 'w' then "Your Turn" else "AI Turn" }

/-- `ChessApp.newGame` (src/app.js lines 171-179): a no-op while
`isThinking`; otherwise reset the game, clear the selection, refresh
the status and issue `'stop'` then `'ucinewgame'` to the adapter. -/
def newGame (re : RulesEngine G) (s : AppState G) : AppState G :=
  if s.isThinking then s
  else
    let s1 := updateStatus re { s with game := re.reset s.game, selectedSquare := none }
    let s2 := { s1 with mgr := sendCommand s1.mgr "stop" }
    { s2 with mgr := sendCommand s2.mgr "ucinewgame" }

/-- `ChessApp.undoMove` (src/app.js lines 181-187): a no-op while
`isThinking`; otherwise call the rules engine's `undo` twice and
refresh the status. -/
def undoMove (re : RulesEngine G) (s : AppState G) : AppState G :=
  if s.isThinking then s
  else updateStatus re { s with game := re.undo (re.undo s.game) }

/-- `ChessApp.triggerAi` (src/app.js lines 329-351).  `depth` is the
value read from the difficulty selector (`parseInt(...) || 10`), a UI
input.  When the adapter is ready, send `position fen <fen>` and
`go depth <d> movetime 2500`; otherwise arm the 1000 ms random-move
fallback timer. -/
def triggerAi (re : RulesEngine G) (depth : Nat) (s : AppState G) : AppState G :=
  if re.game_over s.game then s
  else
    let s1 := { s with isThinking := true, statusText := "AI is thinking..." }
    if s1.mgr.isReady then
      let goCmd := "go depth " ++ toString depth ++ " movetime " ++ toString searchTimeLimitMs
      let s2 := { s1 with mgr := sendCommand s1.mgr ("position fen " ++ re.fen s1.game) }
      { s2 with mgr := sendCommand s2.mgr goCmd }
    else
      { s1 with pending := s1.pending ++ [(randomDelayMs, TimerKind.randomMove)] }

/-- `ChessApp.tryMove` (src/app.js lines 316-325): submit the candidate
`(from, to)` to the rules engine with promotion fixed to `'q'`; on
success refresh and hand the turn to the engine, on rejection return
`false` with the state untouched. -/
def tryMove (re : RulesEngine G) (depth : Nat) (s : AppState G) (f t : String) :
    AppState G × Bool :=
  match re.moveObj s.game f t "q" with
  | some g2 => (triggerAi re depth (updateStatus re { s with game := g2 }), true)
  | none => (s, false)

/-- The second half of `ChessApp.handlePointerDown` (src/app.js lines
251-283): select / start a drag on an own piece (the drag visual is
DOM-only; attaching the `document` drag listeners becomes
`dragListeners := true` — a rendered piece element exists exactly when
`get` returns a piece), else clear the selection. -/
def selectOrDrag (re : RulesEngine G) (s : AppState G) (sq : String) : AppState G :=
  match re.get s.game sq with
  | some p =>
    if p.pcolor = s.playerColor then
      { s with isDragging := true, dragStartSquare := some sq,
               selectedSquare := some sq, dragListeners := true }
    else { s with selectedSquare := none }
  | none => { s with selectedSquare := none }

/-- `ChessApp.handlePointerDown` (src/app.js lines 239-284): rejected
outright while `isThinking`; otherwise try a click-click move from the
current selection, else fall through to piece selection / drag start. -/
def handlePointerDown (re : RulesEngine G) (depth : Nat) (s : AppState G) (sq : String) :
    AppState G :=
  if s.isThinking then s
  else
    let attempt : Option (AppState G) :=
      match s.selectedSquare with
      | some sel =>
        if s.isDragging then none
        else
          let r := tryMove re depth s sel sq
          if r.2 then some { r.1 with selectedSquare := none } else none
      | none => none
    match attempt with
    | some s2 => s2
    | none => selectOrDrag re s sq

/-- `ChessApp.handlePointerUp` (src/app.js lines 295-314): end the drag
(remove the visual and the `document` listeners), and if the gesture
dropped on a square different from the drag origin, try that move. -/
def handlePointerUp (re : RulesEngine G) (depth : Nat) (s : AppState G)
    (target : Option String) : AppState G :=
  let s0 := { s with isDragging := false, dragListeners := false }
  match target, s0.dragStartSquare with
  | some t, some d => if t ≠ d then (tryMove re depth s0 d t).1 else s0
  | _, _ => s0

/-- JS `bestMove.substring(0, 2)` (src/app.js line 357). -/
def decodeFrom (mv : String) : String := String.mk (mv.data.take 2)

/-- JS `bestMove.substring(2, 4)` (src/app.js line 358). -/
def decodeTo (mv : String) : String := String.mk ((mv.data.drop 2).take 2)

/-- JS `bestMove.substring(4, 5)` (src/app.js line 359): the optional
promotion letter, `""` for a 4-character move token. -/
def decodePromo (mv : String) : String := String.mk ((mv.data.drop 4).take 1)

/-- `ChessApp.handleAiMove` (src/app.js lines 353-370).  `bestMove` is
the token passed by the manager, `none` standing for JS `undefined`.
Replies arriving while `isThinking` is false are discarded wholesale;
a falsy or `'(none)'` token only clears `isThinking`; otherwise the
decoded move is applied via the rules engine (which rejects illegal
moves, leaving the game unchanged — the source ignores the result). -/
def handleAiMove (re : RulesEngine G) (s : AppState G) (bestMove : Option String) :
    AppState G :=
  if s.isThinking = false then s
  else
    match bestMove with
    | some mv =>
      if mv ≠ "" ∧ mv ≠ "(none)" then
        updateStatus re
          { s with
            game := (re.moveObj s.game (decodeFrom mv) (decodeTo mv) (decodePromo mv)).getD
              s.game,
            isThinking := false }
      else updateStatus re { s with isThinking := false }
    | none => updateStatus re { s with isThinking := false }

/-- JS `Math.floor(Math.random() * moves.length)` (src/app.js line
375), with the draw of `Math.random()` — a number in `[0,1)` — made an
explicit argument `r` (modelled exactly, as a rational). -/
def chooseIdx (r : ℚ) (n : Nat) : Nat := (⌊r * (n : ℚ)⌋).toNat

/-- `ChessApp.makeRandomMove` (src/app.js lines 372-381): if the legal
move list is non-empty, play its entry at the randomly chosen index
(the `getD` default is unreachable for `r ∈ [0,1)`), then leave the
thinking state and refresh. -/
def makeRandomMove (re : RulesEngine G) (s : AppState G) (r : ℚ) : AppState G :=
  let ms := re.movesAll s.game
  let s1 :=
    if 0 < ms.length then
      { s with game := re.moveSAN s.game (ms.getD (chooseIdx r ms.length) "") }
    else s
  updateStatus re { s1 with isThinking := false }

/-- One incoming engine line, as processed end to end: the manager's
`handleMessage` runs first, and when it invokes `onMoveCallback` the
orchestrator's `handleAiMove` runs on the token. -/
def appHandleLine (re : RulesEngine G) (s : AppState G) (line : String) : AppState G :=
  let r := emHandleMessage s.mgr line
  let s1 := { s with mgr := r.1 }
  match r.2 with
  | some tok => handleAiMove re s1 tok
  | none => s1

/-- The asynchronous events the single-threaded host can deliver to the
core.  `randomTimerFire` carries the `Math.random()` draw. -/
inductive AppEvent
  | pointerDown (sq : String)
  | pointerUp (target : Option String)
  | engineLine (line : String)
  | mainLine (line : String)
  | workerError
  | initTimerFire
  | randomTimerFire (r : ℚ)
  | pollDetect
  | pollExhaust
  | clickNewGame
  | clickUndo

/-- The event-handler dispatch of the host: each event runs the handler
the source installs for it, under the delivery conditions of the
runtime (worker events need a live worker, `window` messages need the
listener, pointerups need the drag listeners, a timer fires only while
armed and firing consumes it, poll events only while polling). -/
def appStep (re : RulesEngine G) (depth : Nat) (s : AppState G) : AppEvent → AppState G
  | AppEvent.pointerDown sq => handlePointerDown re depth s sq
  | AppEvent.pointerUp tgt => if s.dragListeners then handlePointerUp re depth s tgt else s
  | AppEvent.engineLine line => if s.mgr.engineAlive then appHandleLine re s line else s
  | AppEvent.mainLine line => if s.mgr.listening then appHandleLine re s line else s
  | AppEvent.workerError =>
      if s.mgr.engineAlive then { s with mgr := switchToMainThread s.mgr } else s
  | AppEvent.initTimerFire =>
      if (initTimeoutMs, TimerKind.engineInit) ∈ s.pending then
        let s1 := { s with pending := s.pending.erase (initTimeoutMs, TimerKind.engineInit) }
        if s1.mgr.isReady = false ∧ s1.mgr.isWorker = true then
          { s1 with mgr := switchToMainThread s1.mgr }
        else s1
      else s
  | AppEvent.randomTimerFire r =>
      if (randomDelayMs, TimerKind.randomMove) ∈ s.pending then
        makeRandomMove re
          { s with pending := s.pending.erase (randomDelayMs, TimerKind.randomMove) } r
      else s
  | AppEvent.pollDetect =>
      if s.mgr.detecting then
        { s with mgr := initMainThread { s.mgr with detecting := false } }
      else s
  | AppEvent.pollExhaust =>
      if s.mgr.detecting then
        let m := { s.mgr with detecting := false }
        { s with mgr := { m with statusLog := m.statusLog ++ ["Engine Load Failed (Random Moves Only)"] } }
      else s
  | AppEvent.clickNewGame => newGame re s
  | AppEvent.clickUndo => undoMove re s

/-- The state right after the `ChessApp` constructor and `init` ran
(src/app.js lines 134-169): fresh game, not thinking, human plays
white, nothing selected, engine manager initialized (arming the 2000 ms
safety timeout when the worker was constructed). -/
def initialApp (re : RulesEngine G) (g0 : G) (workerOk mc : Bool) : AppState G :=
  updateStatus re
    { mgr := emInit workerOk mc, game := g0, isThinking := false, playerColor := 'w',
      selectedSquare := none, isDragging := false, dragStartSquare := none,
      dragListeners := false, statusText := "",
      pending := if workerOk then [(initTimeoutMs, TimerKind.engineInit)] else [] }

/-- The states the application can actually be in: an initial state
followed by any sequence of delivered events. -/
inductive Reachable (re : RulesEngine G) (depth : Nat) : AppState G → Prop
  | init (g0 : G) (workerOk mc : Bool) : Reachable re depth (initialApp re g0 workerOk mc)
  | step (s : AppState G) (e : AppEvent) :
      Reachable re depth s → Reachable re depth (appStep re depth s e)

/-- A tiny concrete rules engine used to evaluate the theorems on
concrete inputs: the game state is the list of accepted move strings. -/
abbrev DemoG := List String

def demoRE : RulesEngine DemoG where
  reset _ := []
  get _ _ := some { pcolor := 'w', ptype := 'P' }
  movesAll _ := ["a3", "a4"]
  moveObj g f t p := some (g ++ [f ++ t ++ p])
  moveSAN g m := g ++ [m]
  undo g := g.dropLast
  fen _ := "startfen"
  turn _ := 'w'
  in_checkmate _ := false
  in_draw _ := false
  game_over _ := false

/-- Fresh worker-mode manager, engine not yet ready. -/
def demoMgr : EMState := emInit true false

/-- The same manager after readiness. -/
def demoMgrReady : EMState := { demoMgr with isReady := true }

/-- Freshly constructed app over the demo rules engine. -/
def demoApp : AppState DemoG := initialApp demoRE [] true false

/-- App mid-search (engine ready, a reply outstanding). -/
def demoThinking : AppState DemoG := { demoApp with isThinking := true, mgr := demoMgrReady }

/-- App at rest after a few moves. -/
def demoQuiet : AppState DemoG := { demoApp with game := ["a", "b", "c"] }

/-- Demo app after a pointerdown on e2: a drag is in progress. -/
def demoDrag : AppState DemoG := appStep demoRE 10 demoApp (AppEvent.pointerDown "e2")

/-- Demo app after dropping the dragged piece on e4: the human move was
applied and the engine turn began (not ready, so the random fallback
timer is armed and `isThinking` is true). -/
def demoMidSearch : AppState DemoG := appStep demoRE 10 demoDrag (AppEvent.pointerUp (some "e4"))

/-- The drag-gesture coupling invariant: the `document` drag listeners
are attached exactly while `isDragging`, and a drag can only be in
progress while the orchestrator is not thinking. -/
def dragCoupled (s : AppState G) : Prop :=
  s.dragListeners = s.isDragging ∧ (s.isDragging = true → s.isThinking = false)

theorem mk_data (s : String) : String.mk s.data = s := by
  cases s
  rfl

theorem jsSplit_no_sep (cs : List Char) (h : ' ' ∉ cs) : jsSplit cs = [cs] := by
  induction cs with
  | nil => rfl
  | cons c cs ih =>
    have hc : ¬ c = ' ' := fun he => h (by simp [he])
    have ht : ' ' ∉ cs := fun hm => h (by simp [hm])
    simp [jsSplit, hc, ih ht]

theorem jsSplit_no_sep_append (cs rest : List Char) (h : ' ' ∉ cs) :
    jsSplit (cs ++ ' ' :: rest) = cs :: jsSplit rest := by
  induction cs with
  | nil => simp [jsSplit]
  | cons c cs ih =>
    have hc : ¬ c = ' ' := fun he => h (by simp [he])
    have ht : ' ' ∉ cs := fun hm => h (by simp [hm])
    simp [jsSplit, hc, ih ht]

theorem jsSplit_bestmove (cs : List Char) :
    jsSplit ("bestmove ".data ++ cs) = "bestmove".data :: jsSplit cs := rfl

theorem startsWith_bestmove (mv : String) :
    jsStartsWith "bestmove" ("bestmove " ++ mv) = true := by
  unfold jsStartsWith
  rw [String.data_append]
  rfl

theorem bestmove_line_ne_empty (mv : String) : ("bestmove " ++ mv) ≠ "" := by
  intro he
  have h1 : ("bestmove " ++ mv).data.length = 0 := by rw [he]; rfl
  rw [String.data_append, List.length_append] at h1
  simp at h1

theorem bestmove_line_ne_uciok (mv : String) : ("bestmove " ++ mv) ≠ "uciok" := by
  intro he
  have h1 : ("bestmove " ++ mv).data.length = ("uciok" : String).data.length := by rw [he]
  rw [String.data_append, List.length_append] at h1
  simp at h1
  omega

theorem bestMoveToken_plain (mv : String) (h : ' ' ∉ mv.data) :
    bestMoveToken ("bestmove " ++ mv) = some mv := by
  unfold bestMoveToken
  rw [String.data_append, jsSplit_bestmove, jsSplit_no_sep mv.data h]

theorem bestMoveToken_with_rest (mv rest : String) (h : ' ' ∉ mv.data) :
    bestMoveToken ("bestmove " ++ mv ++ " " ++ rest) = some mv := by
  unfold bestMoveToken
  have hd : ("bestmove " ++ mv ++ " " ++ rest).data =
      "bestmove ".data ++ (mv.data ++ ' ' :: rest.data) := by
    rw [String.data_append, String.data_append, String.data_append]
    simp
  rw [hd, jsSplit_bestmove, jsSplit_no_sep_append mv.data rest.data h]

theorem emHandleMessage_bestmove (s : EMState) (mv : String) :
    emHandleMessage s ("bestmove " ++ mv) =
      (s, some (bestMoveToken ("bestmove " ++ mv))) := by
  unfold emHandleMessage
  rw [if_neg (bestmove_line_ne_uciok mv)]
  rw [if_pos ⟨bestmove_line_ne_empty mv, startsWith_bestmove mv⟩]

theorem emHandleMessage_fst_of_ready (s : EMState) (l : String) (h : s.isReady = true) :
    (emHandleMessage s l).1 = s := by
  unfold emHandleMessage
  by_cases hu : l = "uciok" <;> simp [hu, h] <;> split <;> rfl

theorem emHandleMessage_fst_of_other (s : EMState) (l : String) (h : l ≠ "uciok") :
    (emHandleMessage s l).1 = s := by
  unfold emHandleMessage
  simp [h]
  split <;> rfl

theorem emHandleMessage_fst_uciok (s : EMState) (h : s.isReady = false) :
    (emHandleMessage s "uciok").1 =
      { s with isReady := true, readyFires := s.readyFires + 1,
               statusLog := s.statusLog ++ [readyStatusText s.isWorker] } := by
  unfold emHandleMessage
  simp [h]
  split <;> rfl

theorem emLines_cons (s : EMState) (l : String) (ls : List String) :
    emLines s (l :: ls) = emLines (emHandleMessage s l).1 ls := rfl

theorem emLines_append (s : EMState) (p q : List String) :
    emLines s (p ++ q) = emLines (emLines s p) q := by
  unfold emLines
  exact List.foldl_append _ _ p q

theorem emLines_of_ready (s : EMState) (ls : List String) (h : s.isReady = true) :
    emLines s ls = s := by
  induction ls with
  | nil => rfl
  | cons l ls ih =>
    show emLines (emHandleMessage s l).1 ls = s
    rw [emHandleMessage_fst_of_ready s l h]
    exact ih

theorem emLines_first_uciok (ls : List String) (s : EMState) (h : s.isReady = false)
    (hm : "uciok" ∈ ls) :
    (emLines s ls).isReady = true ∧ (emLines s ls).readyFires = s.readyFires + 1 := by
  induction ls generalizing s with
  | nil => cases hm
  | cons l ls ih =>
    by_cases hu : l = "uciok"
    · subst hu
      rw [emLines_cons, emHandleMessage_fst_uciok s h, emLines_of_ready _ ls rfl]
      exact ⟨rfl, rfl⟩
    · have hm2 : "uciok" ∈ ls := by
        cases hm with
        | head => exact absurd rfl hu
        | tail _ h2 => exact h2
      rw [emLines_cons, emHandleMessage_fst_of_other s l hu]
      exact ih s h hm2

/-- C3: for every sequence of incoming lines containing at least one
readiness signal (`'uciok'`), the ready callback fires exactly once
(`readyFires` grows by exactly 1 over the whole session, however many
`'uciok'` lines arrive), and `isReady` is true from the first readiness
signal onward (after any prefix `p` containing one) and never becomes
false again (any extension `q` keeps it true). -/
theorem ready_signal_idempotent (s0 : EMState) (h : s0.isReady = false)
    (p q : List String) (hp : "uciok" ∈ p) :
    (emLines s0 p).isReady = true ∧
    (emLines s0 (p ++ q)).isReady = true ∧
    (emLines s0 (p ++ q)).readyFires = s0.readyFires + 1 := by
  obtain ⟨h1, h2⟩ := emLines_first_uciok p s0 h hp
  rw [emLines_append, emLines_of_ready _ q h1]
  exact ⟨h1, h1, h2⟩

theorem ready_signal_idempotent_witness :
    (emLines demoMgr ["info depth 1", "uciok", "uciok"]).isReady = true ∧
    (emLines demoMgr (["info depth 1", "uciok", "uciok"] ++ ["uciok", "info"])).isReady = true ∧
    (emLines demoMgr (["info depth 1", "uciok", "uciok"] ++ ["uciok", "info"])).readyFires =
      demoMgr.readyFires + 1 :=
  ready_signal_idempotent demoMgr rfl ["info depth 1", "uciok", "uciok"] ["uciok", "info"]
    (by decide)

/-- C4: any command other than the start-protocol command `'uci'` passed
to `send` before the engine has signaled readiness is a complete no-op:
the manager state is returned unchanged, so the command reaches no
channel (`workerSent`/`mainSent` untouched) and is recorded in no
buffer. -/
theorem send_dropped_before_ready (s : EMState) (cmd : String)
    (h1 : s.isReady = false) (h2 : cmd ≠ "uci") :
    sendCommand s cmd = s := by
  simp [sendCommand, h1, h2]

theorem send_dropped_before_ready_witness :
    sendCommand demoMgr "position fen x" = demoMgr :=
  send_dropped_before_ready demoMgr "position fen x" rfl (by decide)

/-- C1: a `BestMove` reply delivered to the orchestrator's reply handler
(`handleAiMove`) while `thinking = false` is discarded regardless of its
payload: the entire application state — board, turn and thinking flag
included — is unchanged. -/
theorem stale_reply_discarded (re : RulesEngine G) (s : AppState G) (bm : Option String)
    (h : s.isThinking = false) :
    handleAiMove re s bm = s := by
  simp [handleAiMove, h]

theorem stale_reply_discarded_witness :
    handleAiMove demoRE demoQuiet (some "e7e5") = demoQuiet :=
  stale_reply_discarded demoRE demoQuiet (some "e7e5") rfl

/-- C2 counterexample: at a concrete state with `thinking = true` (and a
ready worker adapter, so issued commands would be visible on the worker
channel), `newGame` leaves `thinking` true and issues nothing — the
worker channel still holds only the initial `'uci'` — and `undoMove`
returns the state unchanged; the claim's "resets thinking to false"
and "issues stop + new-game" both fail in this state. -/
theorem newGame_undo_not_unconditional :
    (newGame demoRE demoThinking).isThinking = true ∧
    (newGame demoRE demoThinking).mgr.workerSent = ["uci"] ∧
    undoMove demoRE demoThinking = demoThinking :=
  ⟨rfl, rfl, rfl⟩

/-- C2 amended: `newGame` and `undoMove` never change the thinking flag
(in particular they never reset it to false); while `thinking = true`
both are complete no-ops; while `thinking = false`, `newGame` issues the
stop command and then the new-game command to the adapter (and resets
the game), and `undoMove` touches no adapter state and retracts two
half-moves. -/
theorem newGame_undo_guarded (re : RulesEngine G) (s : AppState G) :
    (newGame re s).isThinking = s.isThinking ∧
    (undoMove re s).isThinking = s.isThinking ∧
    (s.isThinking = true → newGame re s = s ∧ undoMove re s = s) ∧
    (s.isThinking = false →
      (newGame re s).mgr = sendCommand (sendCommand s.mgr "stop") "ucinewgame" ∧
      (undoMove re s).mgr = s.mgr ∧
      (newGame re s).game = re.reset s.game ∧
      (undoMove re s).game = re.undo (re.undo s.game)) := by
  by_cases h : s.isThinking = true
  · refine ⟨?_, ?_, ?_, ?_⟩
    · simp [newGame, h]
    · simp [undoMove, h]
    · intro _
      exact ⟨by simp [newGame, h], by simp [undoMove, h]⟩
    · intro hf
      rw [h] at hf
      cases hf
  · have hf : s.isThinking = false := by
      cases hb : s.isThinking
      · rfl
      · exact absurd hb h
    refine ⟨?_, ?_, ?_, ?_⟩
    · simp [newGame, updateStatus, hf, sendCommand]
    · simp [undoMove, updateStatus, hf]
    · intro ht
      rw [hf] at ht
      cases ht
    · intro _
      refine ⟨?_, ?_, ?_, ?_⟩
      · simp [newGame, updateStatus, hf]
      · simp [undoMove, updateStatus, hf]
      · simp [newGame, updateStatus, hf]
      · simp [undoMove, updateStatus, hf]

theorem newGame_undo_guarded_witness :
    newGame demoRE demoThinking = demoThinking ∧
    (newGame demoRE demoQuiet).mgr = sendCommand (sendCommand demoQuiet.mgr "stop") "ucinewgame" ∧
    (undoMove demoRE demoQuiet).game = ["a"] :=
  ⟨((newGame_undo_guarded demoRE demoThinking).2.2.1 rfl).1,
   ((newGame_undo_guarded demoRE demoQuiet).2.2.2 rfl).1,
   Eq.trans ((newGame_undo_guarded demoRE demoQuiet).2.2.2 rfl).2.2.2 rfl⟩

/-- C9: while not thinking, `undoMove` retracts exactly two half-moves:
the resulting game is the rules engine's `undo` applied twice. -/
theorem undo_retracts_two_halfmoves (re : RulesEngine G) (s : AppState G)
    (h : s.isThinking = false) :
    (undoMove re s).game = re.undo (re.undo s.game) := by
  simp [undoMove, updateStatus, h]

theorem undo_retracts_two_halfmoves_witness :
    (undoMove demoRE demoQuiet).game = ["a"] :=
  Eq.trans (undo_retracts_two_halfmoves demoRE demoQuiet rfl) rfl

theorem triggerAi_game (re : RulesEngine G) (depth : Nat) (s : AppState G) :
    (triggerAi re depth s).game = s.game := by
  by_cases h1 : re.game_over s.game = true
  · simp [triggerAi, h1]
  · by_cases h2 : s.mgr.isReady = true <;> simp [triggerAi, h1, h2]

/-- C10: every human candidate move is submitted to the rules engine
with promotion fixed to `'q'`: the outcome of `tryMove` for any
`(from, to)` pair is decided by `moveObj _ from to "q"` alone — on
acceptance the game becomes exactly that result (queen promotion
whenever the engine treats the move as a promotion) and the move
reports success, on rejection the state is unchanged and it reports
failure.  No other promotion piece is ever submitted and the user is
never consulted. -/
theorem human_promotion_always_queen (re : RulesEngine G) (depth : Nat) (s : AppState G)
    (f t : String) (g2 : G) :
    (re.moveObj s.game f t "q" = some g2 →
      (tryMove re depth s f t).1.game = g2 ∧ (tryMove re depth s f t).2 = true) ∧
    (re.moveObj s.game f t "q" = none → tryMove re depth s f t = (s, false)) := by
  constructor
  · intro h
    unfold tryMove
    rw [h]
    exact ⟨by rw [triggerAi_game]; rfl, rfl⟩
  · intro h
    unfold tryMove
    rw [h]

theorem human_promotion_always_queen_witness :
    (tryMove demoRE 10 demoApp "e7" "e8").1.game = ["e7e8q"] ∧
    (tryMove demoRE 10 demoApp "e7" "e8").2 = true :=
  (human_promotion_always_queen demoRE 10 demoApp "e7" "e8" ["e7e8q"]).1 (by decide)

theorem concat_data (f t p : String) :
    (f ++ t ++ p).data = f.data ++ t.data ++ p.data := by
  rw [String.data_append, String.data_append]

theorem decodeFrom_concat (f t p : String) (hf : f.data.length = 2) :
    decodeFrom (f ++ t ++ p) = f := by
  unfold decodeFrom
  rw [concat_data, List.append_assoc, List.take_left' hf, mk_data]

theorem decodeTo_concat (f t p : String) (hf : f.data.length = 2)
    (ht : t.data.length = 2) :
    decodeTo (f ++ t ++ p) = t := by
  unfold decodeTo
  rw [concat_data, List.append_assoc, List.drop_left' hf, List.take_left' ht, mk_data]

theorem decodePromo_concat (f t p : String) (hf : f.data.length = 2)
    (ht : t.data.length = 2) (hp : p.data.length ≤ 1) :
    decodePromo (f ++ t ++ p) = p := by
  unfold decodePromo
  have h4 : (f.data ++ t.data).length = 4 := by
    rw [List.length_append, hf, ht]
  rw [concat_data, List.drop_left' h4, List.take_of_length_le hp, mk_data]

theorem concat_ne_empty (f t p : String) (hf : f.data.length = 2) :
    (f ++ t ++ p) ≠ "" := by
  intro he
  have h1 : (f ++ t ++ p).data.length = 0 := by rw [he]; rfl
  rw [concat_data, List.length_append, List.length_append, hf] at h1
  omega

theorem appHandleLine_bestmove (re : RulesEngine G) (s : AppState G) (mv : String) :
    appHandleLine re s ("bestmove " ++ mv) =
      handleAiMove re s (bestMoveToken ("bestmove " ++ mv)) := by
  unfold appHandleLine
  rw [emHandleMessage_bestmove]

/-- C5: for a line consisting of the best-move tag followed by a 4- or
5-character move token `f ++ t ++ p` (origin square `f`, destination
square `t`, optional promotion letter `p`) — with or without trailing
tokens such as `ponder ...` — the codec extracts exactly that token as
the first space-separated token after the tag, the decode is
`substring(0,2)/substring(2,4)/substring(4,5)`, and processing the line
while `thinking = true` applies the decoded move via the rules engine
and returns to idle; the `'(none)'` sentinel returns to idle without
mutating the board. -/
theorem bestmove_decoded_and_applied (re : RulesEngine G) (s : AppState G)
    (h : s.isThinking = true) (f t p rest : String)
    (hf : f.data.length = 2) (ht : t.data.length = 2) (hp : p.data.length ≤ 1)
    (hsp : ' ' ∉ (f ++ t ++ p).data) (hne : f ++ t ++ p ≠ "(none)") :
    bestMoveToken ("bestmove " ++ (f ++ t ++ p)) = some (f ++ t ++ p) ∧
    bestMoveToken ("bestmove " ++ (f ++ t ++ p) ++ " " ++ rest) = some (f ++ t ++ p) ∧
    decodeFrom (f ++ t ++ p) = f ∧
    decodeTo (f ++ t ++ p) = t ∧
    decodePromo (f ++ t ++ p) = p ∧
    appHandleLine re s ("bestmove " ++ (f ++ t ++ p)) =
      updateStatus re
        { s with game := (re.moveObj s.game f t p).getD s.game, isThinking := false } ∧
    appHandleLine re s "bestmove (none)" = updateStatus re { s with isThinking := false } := by
  have hsp2 : ' ' ∉ (f ++ t ++ p).data := hsp
  refine ⟨bestMoveToken_plain _ hsp, bestMoveToken_with_rest _ rest hsp, ?_, ?_, ?_, ?_, ?_⟩
  · exact decodeFrom_concat f t p hf
  · exact decodeTo_concat f t p hf ht
  · exact decodePromo_concat f t p hf ht hp
  · rw [appHandleLine_bestmove, bestMoveToken_plain _ hsp]
    unfold handleAiMove
    rw [h]
    simp only [Bool.true_eq_false, if_false]
    rw [if_pos ⟨concat_ne_empty f t p hf, hne⟩]
    rw [decodeFrom_concat f t p hf, decodeTo_concat f t p hf ht,
        decodePromo_concat f t p hf ht hp]
  · have hline : ("bestmove (none)" : String) = "bestmove " ++ "(none)" := rfl
    rw [hline, appHandleLine_bestmove, bestMoveToken_plain _ (by decide)]
    unfold handleAiMove
    rw [h]
    simp only [Bool.true_eq_false, if_false]
    rw [if_neg (by simp)]

theorem bestmove_decoded_and_applied_witness :
    bestMoveToken ("bestmove " ++ ("e7" ++ "e8" ++ "q")) = some ("e7" ++ "e8" ++ "q") ∧
    appHandleLine demoRE demoThinking ("bestmove " ++ ("e7" ++ "e8" ++ "q")) =
      updateStatus demoRE
        { demoThinking with
          game := (demoRE.moveObj demoThinking.game "e7" "e8" "q").getD demoThinking.game,
          isThinking := false } ∧
    appHandleLine demoRE demoThinking "bestmove (none)" =
      updateStatus demoRE { demoThinking with isThinking := false } :=
  ⟨(bestmove_decoded_and_applied demoRE demoThinking rfl "e7" "e8" "q" "ponder e7e5"
      (by decide) (by decide) (by decide) (by decide) (by decide)).1,
   (bestmove_decoded_and_applied demoRE demoThinking rfl "e7" "e8" "q" "ponder e7e5"
      (by decide) (by decide) (by decide) (by decide) (by decide)).2.2.2.2.2.1,
   (bestmove_decoded_and_applied demoRE demoThinking rfl "e7" "e8" "q" "ponder e7e5"
      (by decide) (by decide) (by decide) (by decide) (by decide)).2.2.2.2.2.2⟩

theorem chooseIdx_lt (r : ℚ) (n : Nat) (h0 : 0 ≤ r) (h1 : r < 1) (hn : 0 < n) :
    chooseIdx r n < n := by
  unfold chooseIdx
  have hnq : (0 : ℚ) < (n : ℚ) := by exact_mod_cast hn
  have h2 : r * (n : ℚ) < (n : ℚ) := by
    calc r * (n : ℚ) < 1 * (n : ℚ) := by exact mul_lt_mul_of_pos_right h1 hnq
    _ = (n : ℚ) := one_mul _
  have h3 : ⌊r * (n : ℚ)⌋ < (n : ℤ) := by
    rw [Int.floor_lt]
    exact_mod_cast h2
  have h4 : 0 ≤ ⌊r * (n : ℚ)⌋ := Int.floor_nonneg.mpr (mul_nonneg h0 (le_of_lt hnq))
  omega

theorem chooseIdx_eq_iff (r : ℚ) (n i : Nat) (h0 : 0 ≤ r) (hn : 0 < n) :
    chooseIdx r n = i ↔
      ((i : ℚ) / (n : ℚ) ≤ r ∧ r < ((i : ℚ) + 1) / (n : ℚ)) := by
  unfold chooseIdx
  have hnq : (0 : ℚ) < (n : ℚ) := by exact_mod_cast hn
  have h4 : 0 ≤ ⌊r * (n : ℚ)⌋ := Int.floor_nonneg.mpr (mul_nonneg h0 (le_of_lt hnq))
  have key : (⌊r * (n : ℚ)⌋ = (i : ℤ)) ↔
      ((i : ℚ) ≤ r * (n : ℚ) ∧ r * (n : ℚ) < (i : ℚ) + 1) := by
    rw [Int.floor_eq_iff]
    push_cast
    exact Iff.rfl
  rw [div_le_iff₀ hnq, lt_div_iff₀ hnq]
  constructor
  · intro he
    have hz : ⌊r * (n : ℚ)⌋ = (i : ℤ) := by omega
    exact key.mp hz
  · intro hb
    have hz : ⌊r * (n : ℚ)⌋ = (i : ℤ) := key.mpr hb
    omega

theorem makeRandomMove_isThinking (re : RulesEngine G) (s : AppState G) (r : ℚ) :
    (makeRandomMove re s r).isThinking = false := by
  by_cases h : 0 < (re.movesAll s.game).length <;>
    simp [makeRandomMove, updateStatus, h]

/-- C6: whenever an engine turn begins (`triggerAi` on a non-terminal
position) with the adapter not ready, the orchestrator enters thinking,
arms the fixed 1000 ms fallback timer and sends nothing; when the timer
fires, `makeRandomMove` plays the legal-move list's entry at index
`⌊r·n⌋` for the `Math.random()` draw `r` — an in-range member of the
list whenever the list is non-empty — and thinking is false afterwards.
The choice is uniform: index `i` is chosen exactly for draws in
`[i/n, (i+1)/n)`, an interval of length `1/n` for every `i`. -/
theorem notReady_random_fallback (re : RulesEngine G) (depth : Nat) (s : AppState G)
    (r : ℚ) (i : Nat) (hover : re.game_over s.game = false)
    (hready : s.mgr.isReady = false) (h0 : 0 ≤ r) (h1 : r < 1)
    (hn : 0 < (re.movesAll s.game).length) :
    randomDelayMs = 1000 ∧
    triggerAi re depth s = { s with isThinking := true, statusText := "AI is thinking...", pending := s.pending ++ [(randomDelayMs, TimerKind.randomMove)] } ∧
    chooseIdx r (re.movesAll s.game).length < (re.movesAll s.game).length ∧
    (re.movesAll s.game).getD (chooseIdx r (re.movesAll s.game).length) "" ∈
      re.movesAll s.game ∧
    (makeRandomMove re s r).game =
      re.moveSAN s.game
        ((re.movesAll s.game).getD (chooseIdx r (re.movesAll s.game).length) "") ∧
    (makeRandomMove re s r).isThinking = false ∧
    (chooseIdx r (re.movesAll s.game).length = i ↔
      ((i : ℚ) / ((re.movesAll s.game).length : ℚ) ≤ r ∧
        r < ((i : ℚ) + 1) / ((re.movesAll s.game).length : ℚ))) := by
  have hlt := chooseIdx_lt r (re.movesAll s.game).length h0 h1 hn
  refine ⟨rfl, ?_, hlt, ?_, ?_, makeRandomMove_isThinking re s r, ?_⟩
  · simp [triggerAi, hover, hready]
  · rw [List.getD_eq_getElem _ _ hlt]
    exact List.getElem_mem hlt
  · unfold makeRandomMove
    simp [hn, updateStatus]
  · exact chooseIdx_eq_iff r (re.movesAll s.game).length i h0 hn

theorem notReady_random_fallback_witness :
    triggerAi demoRE 10 demoApp = { demoApp with isThinking := true, statusText := "AI is thinking...", pending := demoApp.pending ++ [(randomDelayMs, TimerKind.randomMove)] } ∧
    (makeRandomMove demoRE demoApp 0).game =
      demoRE.moveSAN demoApp.game
        ((demoRE.movesAll demoApp.game).getD
          (chooseIdx 0 (demoRE.movesAll demoApp.game).length) "") ∧
    (makeRandomMove demoRE demoApp 0).isThinking = false :=
  ⟨(notReady_random_fallback demoRE 10 demoApp 0 0 rfl rfl (le_refl 0) one_pos
      (by decide)).2.1,
   (notReady_random_fallback demoRE 10 demoApp 0 0 rfl rfl (le_refl 0) one_pos
      (by decide)).2.2.2.2.1,
   (notReady_random_fallback demoRE 10 demoApp 0 0 rfl rfl (le_refl 0) one_pos
      (by decide)).2.2.2.2.2.1⟩

/-- C7: the concurrent-channel readiness race.  The safety timeout is
the fixed 2000 ms and is armed at construction; if it fires while the
state is unresolved (no readiness, still in worker mode) the adapter
tears the channel down (worker terminated, worker mode left) and
transitions to in-process detection; once the race is resolved — by
readiness, or by a fallback having begun (worker mode already left
after an error or an earlier elapse) — a timer elapse leaves adapter
and orchestrator state alone; late readiness is a no-op: a further
`'uciok'` after readiness changes nothing, and after a fallback the
dead worker channel delivers nothing at all. -/
theorem worker_timeout_race_first_wins (re : RulesEngine G) (depth : Nat) (g0 : G)
    (mc : Bool) (s : AppState G) (l : String) :
    initTimeoutMs = 2000 ∧
    (initialApp re g0 true mc).pending = [(initTimeoutMs, TimerKind.engineInit)] ∧
    (s.mgr.isReady = false → s.mgr.isWorker = true →
      (initTimeoutMs, TimerKind.engineInit) ∈ s.pending →
      (appStep re depth s AppEvent.initTimerFire).mgr = switchToMainThread s.mgr ∧
      (switchToMainThread s.mgr).isWorker = false ∧
      (switchToMainThread s.mgr).engineAlive = false ∧
      (switchToMainThread s.mgr).detecting = true) ∧
    (s.mgr.isReady = true →
      (appStep re depth s AppEvent.initTimerFire).mgr = s.mgr ∧
      (appStep re depth s AppEvent.initTimerFire).game = s.game ∧
      (appStep re depth s AppEvent.initTimerFire).isThinking = s.isThinking) ∧
    (s.mgr.isWorker = false →
      (appStep re depth s AppEvent.initTimerFire).mgr = s.mgr ∧
      (appStep re depth s AppEvent.initTimerFire).game = s.game ∧
      (appStep re depth s AppEvent.initTimerFire).isThinking = s.isThinking) ∧
    (s.mgr.isReady = true → appStep re depth s (AppEvent.engineLine "uciok") = s) ∧
    (s.mgr.engineAlive = false → appStep re depth s (AppEvent.engineLine l) = s) := by
  refine ⟨rfl, by simp [initialApp, updateStatus], ?_, ?_, ?_, ?_, ?_⟩
  · intro hr hw hm
    refine ⟨?_, ?_, ?_, ?_⟩
    · simp [appStep, hm, hr, hw]
    · simp [switchToMainThread]
    · by_cases ha : s.mgr.engineAlive = true <;>
        simp [switchToMainThread, hw, ha]
    · simp [switchToMainThread]
  · intro hr
    by_cases hm : (initTimeoutMs, TimerKind.engineInit) ∈ s.pending <;>
      simp [appStep, hm, hr]
  · intro hw
    by_cases hm : (initTimeoutMs, TimerKind.engineInit) ∈ s.pending <;>
      simp [appStep, hm, hw]
  · intro hr
    by_cases ha : s.mgr.engineAlive = true
    · have h0 : emHandleMessage s.mgr "uciok" = (s.mgr, none) := by
        unfold emHandleMessage
        rw [if_pos rfl, if_pos hr, if_neg (by decide)]
      have h1 : appHandleLine re s "uciok" = s := by
        unfold appHandleLine
        rw [h0]
      simp [appStep, ha, h1]
    · simp [appStep, ha]
  · intro ha
    simp [appStep, ha]

theorem worker_timeout_race_first_wins_witness :
    (appStep demoRE 10 demoApp AppEvent.initTimerFire).mgr = switchToMainThread demoApp.mgr ∧
    appStep demoRE 10 demoThinking (AppEvent.engineLine "uciok") = demoThinking :=
  ⟨((worker_timeout_race_first_wins demoRE 10 ([] : DemoG) false demoApp "x").2.2.1 rfl rfl
      (by decide)).1,
   (worker_timeout_race_first_wins demoRE 10 ([] : DemoG) false demoThinking "x").2.2.2.2.2.1
      rfl⟩

theorem updateStatus_isThinking (re : RulesEngine G) (s : AppState G) :
    (updateStatus re s).isThinking = s.isThinking := rfl

theorem updateStatus_isDragging (re : RulesEngine G) (s : AppState G) :
    (updateStatus re s).isDragging = s.isDragging := rfl

theorem updateStatus_dragListeners (re : RulesEngine G) (s : AppState G) :
    (updateStatus re s).dragListeners = s.dragListeners := rfl

theorem triggerAi_isDragging (re : RulesEngine G) (depth : Nat) (s : AppState G) :
    (triggerAi re depth s).isDragging = s.isDragging := by
  by_cases h1 : re.game_over s.game = true
  · simp [triggerAi, h1]
  · by_cases h2 : s.mgr.isReady = true <;> simp [triggerAi, h1, h2]

theorem triggerAi_dragListeners (re : RulesEngine G) (depth : Nat) (s : AppState G) :
    (triggerAi re depth s).dragListeners = s.dragListeners := by
  by_cases h1 : re.game_over s.game = true
  · simp [triggerAi, h1]
  · by_cases h2 : s.mgr.isReady = true <;> simp [triggerAi, h1, h2]

theorem tryMove_fst_isDragging (re : RulesEngine G) (depth : Nat) (s : AppState G)
    (f t : String) : ((tryMove re depth s f t).1).isDragging = s.isDragging := by
  unfold tryMove
  cases h : re.moveObj s.game f t "q" with
  | none => rfl
  | some g2 =>
    show (triggerAi re depth (updateStatus re { s with game := g2 })).isDragging = s.isDragging
    rw [triggerAi_isDragging, updateStatus_isDragging]

theorem tryMove_fst_dragListeners (re : RulesEngine G) (depth : Nat) (s : AppState G)
    (f t : String) : ((tryMove re depth s f t).1).dragListeners = s.dragListeners := by
  unfold tryMove
  cases h : re.moveObj s.game f t "q" with
  | none => rfl
  | some g2 =>
    show (triggerAi re depth (updateStatus re { s with game := g2 })).dragListeners =
      s.dragListeners
    rw [triggerAi_dragListeners, updateStatus_dragListeners]

theorem handleAiMove_id_of_not_thinking (re : RulesEngine G) (s : AppState G)
    (bm : Option String) (h : s.isThinking = false) : handleAiMove re s bm = s := by
  simp [handleAiMove, h]

theorem handleAiMove_isDragging (re : RulesEngine G) (s : AppState G) (bm : Option String) :
    (handleAiMove re s bm).isDragging = s.isDragging := by
  by_cases h : s.isThinking = false
  · simp [handleAiMove, h]
  · cases bm with
    | none => simp [handleAiMove, h, updateStatus]
    | some mv =>
      by_cases h2 : (mv ≠ "" ∧ mv ≠ "(none)") <;>
        simp [handleAiMove, h, h2, updateStatus]

theorem handleAiMove_dragListeners (re : RulesEngine G) (s : AppState G) (bm : Option String) :
    (handleAiMove re s bm).dragListeners = s.dragListeners := by
  by_cases h : s.isThinking = false
  · simp [handleAiMove, h]
  · cases bm with
    | none => simp [handleAiMove, h, updateStatus]
    | some mv =>
      by_cases h2 : (mv ≠ "" ∧ mv ≠ "(none)") <;>
        simp [handleAiMove, h, h2, updateStatus]

theorem handleAiMove_isThinking_false (re : RulesEngine G) (s : AppState G)
    (bm : Option String) (h : s.isThinking = false) :
    (handleAiMove re s bm).isThinking = false := by
  rw [handleAiMove_id_of_not_thinking re s bm h]
  exact h

theorem makeRandomMove_isDragging (re : RulesEngine G) (s : AppState G) (r : ℚ) :
    (makeRandomMove re s r).isDragging = s.isDragging := by
  by_cases h : 0 < (re.movesAll s.game).length <;>
    simp [makeRandomMove, updateStatus, h]

theorem makeRandomMove_dragListeners (re : RulesEngine G) (s : AppState G) (r : ℚ) :
    (makeRandomMove re s r).dragListeners = s.dragListeners := by
  by_cases h : 0 < (re.movesAll s.game).length <;>
    simp [makeRandomMove, updateStatus, h]

theorem appHandleLine_isDragging (re : RulesEngine G) (s : AppState G) (line : String) :
    (appHandleLine re s line).isDragging = s.isDragging := by
  simp only [appHandleLine]
  cases h : (emHandleMessage s.mgr line).2 with
  | none => rfl
  | some tok => rw [handleAiMove_isDragging]

theorem appHandleLine_dragListeners (re : RulesEngine G) (s : AppState G) (line : String) :
    (appHandleLine re s line).dragListeners = s.dragListeners := by
  simp only [appHandleLine]
  cases h : (emHandleMessage s.mgr line).2 with
  | none => rfl
  | some tok => rw [handleAiMove_dragListeners]

theorem appHandleLine_isThinking_false (re : RulesEngine G) (s : AppState G) (line : String)
    (h : s.isThinking = false) : (appHandleLine re s line).isThinking = false := by
  simp only [appHandleLine]
  cases hm : (emHandleMessage s.mgr line).2 with
  | none => exact h
  | some tok => exact handleAiMove_isThinking_false re _ tok h

theorem dragCoupled_selectOrDrag (re : RulesEngine G) (s : AppState G) (sq : String)
    (hthf : s.isThinking = false) (h : dragCoupled s) :
    dragCoupled (selectOrDrag re s sq) := by
  obtain ⟨hcp, him⟩ := h
  unfold selectOrDrag
  cases hget : re.get s.game sq with
  | none => exact ⟨hcp, him⟩
  | some p =>
    by_cases hc : p.pcolor = s.playerColor
    · simp only [hc, if_true]
      exact ⟨rfl, fun _ => hthf⟩
    · simp only [hc, if_false]
      exact ⟨hcp, him⟩

theorem dragCoupled_handlePointerDown (re : RulesEngine G) (depth : Nat) (s : AppState G)
    (sq : String) (h : dragCoupled s) :
    dragCoupled (handlePointerDown re depth s sq) := by
  obtain ⟨hcp, him⟩ := h
  by_cases hth : s.isThinking = true
  · simp only [handlePointerDown, hth, if_true]
    exact ⟨hcp, him⟩
  · have hthf : s.isThinking = false := by
      cases hb : s.isThinking
      · rfl
      · exact absurd hb hth
    simp only [handlePointerDown, hthf, Bool.false_eq_true, if_false]
    cases hsel : s.selectedSquare with
    | none =>
      exact dragCoupled_selectOrDrag re s sq hthf ⟨hcp, him⟩
    | some sel =>
      by_cases hd : s.isDragging = true
      · simp only [hd, if_true]
        exact dragCoupled_selectOrDrag re s sq hthf ⟨hcp, him⟩
      · have hdf : s.isDragging = false := by
          cases hb : s.isDragging
          · rfl
          · exact absurd hb hd
        simp only [hdf, Bool.false_eq_true, if_false]
        by_cases hr : (tryMove re depth s sel sq).2 = true
        · simp only [hr, if_true]
          refine ⟨?_, ?_⟩
          · show ((tryMove re depth s sel sq).1).dragListeners =
              ((tryMove re depth s sel sq).1).isDragging
            rw [tryMove_fst_dragListeners, tryMove_fst_isDragging]
            exact hcp
          · intro hx
            rw [show ({ (tryMove re depth s sel sq).1 with selectedSquare := none } :
                AppState G).isDragging = ((tryMove re depth s sel sq).1).isDragging from rfl,
              tryMove_fst_isDragging] at hx
            rw [hdf] at hx
            cases hx
        · simp only [hr, if_false]
          exact dragCoupled_selectOrDrag re s sq hthf ⟨hcp, him⟩

theorem bool_eq_false_of_ne_true (b : Bool) (h : ¬ b = true) : b = false := by
  cases hb : b
  · rfl
  · exact absurd hb h

theorem newGame_isDragging (re : RulesEngine G) (s : AppState G) :
    (newGame re s).isDragging = s.isDragging := by
  by_cases h : s.isThinking = true <;> simp [newGame, updateStatus, h]

theorem newGame_dragListeners (re : RulesEngine G) (s : AppState G) :
    (newGame re s).dragListeners = s.dragListeners := by
  by_cases h : s.isThinking = true <;> simp [newGame, updateStatus, h]

theorem newGame_isThinking (re : RulesEngine G) (s : AppState G) :
    (newGame re s).isThinking = s.isThinking := by
  by_cases h : s.isThinking = true <;> simp [newGame, updateStatus, h]

theorem undoMove_isDragging (re : RulesEngine G) (s : AppState G) :
    (undoMove re s).isDragging = s.isDragging := by
  by_cases h : s.isThinking = true <;> simp [undoMove, updateStatus, h]

theorem undoMove_dragListeners (re : RulesEngine G) (s : AppState G) :
    (undoMove re s).dragListeners = s.dragListeners := by
  by_cases h : s.isThinking = true <;> simp [undoMove, updateStatus, h]

theorem undoMove_isThinking (re : RulesEngine G) (s : AppState G) :
    (undoMove re s).isThinking = s.isThinking := by
  by_cases h : s.isThinking = true <;> simp [undoMove, updateStatus, h]

theorem dragCoupled_handlePointerUp (re : RulesEngine G) (depth : Nat) (s : AppState G)
    (target : Option String) : dragCoupled (handlePointerUp re depth s target) := by
  unfold handlePointerUp
  show dragCoupled
    (match target, ({ s with isDragging := false, dragListeners := false } :
        AppState G).dragStartSquare with
      | some t, some d =>
        if t ≠ d then
          (tryMove re depth { s with isDragging := false, dragListeners := false } d t).1
        else { s with isDragging := false, dragListeners := false }
      | _, _ => { s with isDragging := false, dragListeners := false })
  split
  · split
    · refine ⟨?_, ?_⟩
      · rw [tryMove_fst_dragListeners, tryMove_fst_isDragging]
      · intro hx
        rw [tryMove_fst_isDragging] at hx
        exact absurd hx Bool.false_ne_true
    · exact ⟨rfl, fun hx => by cases hx⟩
  · exact ⟨rfl, fun hx => by cases hx⟩

theorem dragCoupled_step (re : RulesEngine G) (depth : Nat) (s : AppState G) (e : AppEvent)
    (h : dragCoupled s) : dragCoupled (appStep re depth s e) := by
  obtain ⟨hcp, him⟩ := h
  cases e with
  | pointerDown sq => exact dragCoupled_handlePointerDown re depth s sq ⟨hcp, him⟩
  | pointerUp tgt =>
    simp only [appStep]
    cases ha : s.dragListeners with
    | true =>
      rw [if_pos rfl]
      exact dragCoupled_handlePointerUp re depth s tgt
    | false =>
      rw [if_neg Bool.false_ne_true]
      exact ⟨hcp, him⟩
  | engineLine line =>
    simp only [appStep]
    cases ha : s.mgr.engineAlive with
    | true =>
      rw [if_pos rfl]
      refine ⟨?_, ?_⟩
      · rw [appHandleLine_dragListeners, appHandleLine_isDragging]
        exact hcp
      · intro hx
        rw [appHandleLine_isDragging] at hx
        exact appHandleLine_isThinking_false re s line (him hx)
    | false =>
      rw [if_neg Bool.false_ne_true]
      exact ⟨hcp, him⟩
  | mainLine line =>
    simp only [appStep]
    cases ha : s.mgr.listening with
    | true =>
      rw [if_pos rfl]
      refine ⟨?_, ?_⟩
      · rw [appHandleLine_dragListeners, appHandleLine_isDragging]
        exact hcp
      · intro hx
        rw [appHandleLine_isDragging] at hx
        exact appHandleLine_isThinking_false re s line (him hx)
    | false =>
      rw [if_neg Bool.false_ne_true]
      exact ⟨hcp, him⟩
  | workerError =>
    simp only [appStep]
    cases ha : s.mgr.engineAlive with
    | true =>
      rw [if_pos rfl]
      exact ⟨hcp, him⟩
    | false =>
      rw [if_neg Bool.false_ne_true]
      exact ⟨hcp, him⟩
  | initTimerFire =>
    simp only [appStep]
    by_cases hm : (initTimeoutMs, TimerKind.engineInit) ∈ s.pending
    · rw [if_pos hm]
      by_cases hg : ({ s with pending := s.pending.erase (initTimeoutMs, TimerKind.engineInit) } :
          AppState G).mgr.isReady = false ∧
          ({ s with pending := s.pending.erase (initTimeoutMs, TimerKind.engineInit) } :
            AppState G).mgr.isWorker = true
      · rw [if_pos hg]
        exact ⟨hcp, him⟩
      · rw [if_neg hg]
        exact ⟨hcp, him⟩
    · rw [if_neg hm]
      exact ⟨hcp, him⟩
  | randomTimerFire r =>
    simp only [appStep]
    by_cases hm : (randomDelayMs, TimerKind.randomMove) ∈ s.pending
    · rw [if_pos hm]
      refine ⟨?_, ?_⟩
      · rw [makeRandomMove_dragListeners, makeRandomMove_isDragging]
        exact hcp
      · intro hx
        exact makeRandomMove_isThinking re _ r
    · rw [if_neg hm]
      exact ⟨hcp, him⟩
  | pollDetect =>
    simp only [appStep]
    cases hd : s.mgr.detecting with
    | true =>
      rw [if_pos rfl]
      exact ⟨hcp, him⟩
    | false =>
      rw [if_neg Bool.false_ne_true]
      exact ⟨hcp, him⟩
  | pollExhaust =>
    simp only [appStep]
    cases hd : s.mgr.detecting with
    | true =>
      rw [if_pos rfl]
      exact ⟨hcp, him⟩
    | false =>
      rw [if_neg Bool.false_ne_true]
      exact ⟨hcp, him⟩
  | clickNewGame =>
    show dragCoupled (newGame re s)
    refine ⟨?_, ?_⟩
    · rw [newGame_dragListeners, newGame_isDragging]
      exact hcp
    · intro hx
      rw [newGame_isDragging] at hx
      rw [newGame_isThinking]
      exact him hx
  | clickUndo =>
    show dragCoupled (undoMove re s)
    refine ⟨?_, ?_⟩
    · rw [undoMove_dragListeners, undoMove_isDragging]
      exact hcp
    · intro hx
      rw [undoMove_isDragging] at hx
      rw [undoMove_isThinking]
      exact him hx

theorem reachable_dragCoupled (re : RulesEngine G) (depth : Nat) (s : AppState G)
    (h : Reachable re depth s) : dragCoupled s := by
  induction h with
  | init g0 workerOk mc => exact ⟨rfl, fun hx => by cases hx⟩
  | step s e hs ih => exact dragCoupled_step re depth s e ih

/-- C8: in every reachable application state with `thinking = true`,
every pointer interaction is rejected outright and changes nothing: a
pointerdown is a no-op (the guard at the top of `handlePointerDown`),
and a pointerup — the only other path into `tryMove` — cannot act
because no drag can be in progress while thinking (the `document` drag
listeners are provably detached), so no move is applied and board/turn
state is unchanged. -/
theorem human_move_rejected_while_thinking (re : RulesEngine G) (depth : Nat)
    (s : AppState G) (hs : Reachable re depth s) (ht : s.isThinking = true)
    (sq : String) (tgt : Option String) :
    appStep re depth s (AppEvent.pointerDown sq) = s ∧
    appStep re depth s (AppEvent.pointerUp tgt) = s := by
  obtain ⟨hcp, him⟩ := reachable_dragCoupled re depth s hs
  constructor
  · show handlePointerDown re depth s sq = s
    simp [handlePointerDown, ht]
  · have hdl : s.dragListeners = false := by
      cases hdrag : s.isDragging with
      | false => rw [hcp, hdrag]
      | true =>
        rw [him hdrag] at ht
        cases ht
    simp only [appStep]
    rw [hdl, if_neg Bool.false_ne_true]

theorem human_move_rejected_while_thinking_witness :
    appStep demoRE 10 demoMidSearch (AppEvent.pointerDown "a1") = demoMidSearch ∧
    appStep demoRE 10 demoMidSearch (AppEvent.pointerUp none) = demoMidSearch :=
  human_move_rejected_while_thinking demoRE 10 demoMidSearch
    (Reachable.step demoDrag (AppEvent.pointerUp (some "e4"))
      (Reachable.step demoApp (AppEvent.pointerDown "e2")
        (Reachable.init [] true false)))
    rfl "a1" none
